import Mathlib

/-!
Verification development for the browser-AI control core of the repository
(src/scripts/browser-ai.py and src/scripts/python-server.py).

The embedding models:
* the HTML-to-Markdown document converter (the `htmlToMarkdown` /
  `processNode` JavaScript evaluated on the page by `python-server.py`);
* the per-tick extraction script producing `{count, text, images}` samples;
* the CDP websocket transport (`execute_js` in both files);
* tab selection (`connect_chatgpt` in browser-ai.py, the tab scan in
  `_browser_ai` of python-server.py);
* the message snapshot (`get_messages`);
* the send / poll / stabilization loops of `send_message` (browser-ai.py)
  and of the `chat` action of `_browser_ai` (python-server.py).

Machine-level aspects not modelled: real sleeping between poll ticks (the
tick sequence is passed in as data), browser rendering of `innerText`
(modelled as text content), and resolution of relative URLs by the `src`
DOM property (modelled as the attribute value).
-/

namespace OrcaAI

/-! ## String helpers (substring tests used by the Python `in` operator
and the JavaScript `startsWith`) -/

/-- Does the second list start with the first one? -/
def startsWithList : List Char → List Char → Bool
  | [], _ => true
  | _ :: _, [] => false
  | p :: ps, c :: cs => p == c && startsWithList ps cs

/-- Does the list contain the pattern as a contiguous sublist? -/
def listHasSub (pat : List Char) : List Char → Bool
  | [] => pat.isEmpty
  | c :: cs => startsWithList pat (c :: cs) || listHasSub pat cs

/-- Python `pat in s` substring test. -/
def strContains (s pat : String) : Bool :=
  listHasSub pat.toList s.toList

/-- JavaScript `s.startsWith(pat)`. -/
def strStartsWith (s pat : String) : Bool :=
  startsWithList pat.toList s.toList

/-- JavaScript `s.trim()`: strip leading and trailing whitespace (ASCII
whitespace; the exotic Unicode spaces JavaScript also strips do not occur
in the modelled strings). -/
def jsTrim (s : String) : String :=
  String.mk
    (((s.toList.dropWhile Char.isWhitespace).reverse.dropWhile
        Char.isWhitespace).reverse)

/-- Split a character list on a separator character (the JavaScript
`s.split(sep)` for a one-character separator). -/
def splitOnChar (sep : Char) : List Char → List (List Char)
  | [] => [[]]
  | c :: cs =>
    let r := splitOnChar sep cs
    if c = sep then [] :: r
    else
      match r with
      | [] => [[c]]
      | l :: ls => (c :: l) :: ls

/-- JavaScript `s.split("\n")`. -/
def splitLines (cs : List Char) : List (List Char) :=
  splitOnChar '\n' cs

/-- JavaScript `parts.join(sep)`. -/
def joinWith (sep : String) : List String → String
  | [] => ""
  | [s] => s
  | s :: rest => s ++ sep ++ joinWith sep rest

/-! ## DOM model

A node is a text node (`nodeType === 3`), an element (`nodeType === 1`,
with its tag name already lowercased as by `tagName.toLowerCase()`), or
any other node kind (comment etc.), which the page scripts ignore. -/

inductive DomNode where
  | text (s : String)
  | other
  | elem (tag : String) (attrs : List (String × String)) (children : List DomNode)

/-- Model of `getAttribute`: first attribute with the given name, if any. -/
def attrOf (attrs : List (String × String)) (k : String) : Option String :=
  (attrs.find? (fun p => p.1 == k)).map (fun p => p.2)

/-- Attribute lookup on a node (`none` on non-elements). -/
def attrOfNode (n : DomNode) (k : String) : Option String :=
  match n with
  | .elem _ attrs _ => attrOf attrs k
  | _ => none

/-- Class-token membership, as matched by a `.token` CSS selector
(class attribute split on spaces). -/
def hasClassTok (n : DomNode) (tok : String) : Bool :=
  ((splitOnChar ' ' ((attrOfNode n "class").getD "").toList).map
    String.mk).contains tok

mutual

/-- Model of `textContent` of a node: concatenated text of descendant text nodes. -/
def textContent : DomNode → String
  | .text s => s
  | .other => ""
  | .elem _ _ children => textContentList children

/-- Text content over a forest. -/
def textContentList : List DomNode → String
  | [] => ""
  | c :: cs => textContent c ++ textContentList cs

end

mutual

/-- Model of `querySelector(tag)` over a forest: first element with the given tag,
in document (pre)order. -/
def findTagList (tag : String) : List DomNode → Option DomNode
  | [] => none
  | c :: cs =>
    match findTagNode tag c with
    | some r => some r
    | none => findTagList tag cs

/-- Pre-order search of one subtree for an element with the given tag. -/
def findTagNode (tag : String) : DomNode → Option DomNode
  | .elem t a ch => if t = tag then some (.elem t a ch) else findTagList tag ch
  | _ => none

end

mutual

/-- Model of `querySelector(.tok)` over a forest: first element carrying the class
token, in document (pre)order. -/
def findClassList (tok : String) : List DomNode → Option DomNode
  | [] => none
  | c :: cs =>
    match findClassNode tok c with
    | some r => some r
    | none => findClassList tok cs

/-- Pre-order search of one subtree for an element with the class token. -/
def findClassNode (tok : String) : DomNode → Option DomNode
  | .elem t a ch =>
    if hasClassTok (.elem t a ch) tok then some (.elem t a ch)
    else findClassList tok ch
  | _ => none

end

mutual

/-- Model of `querySelectorAll(tag)` over a forest: all matching elements in
document (pre)order. -/
def collectTagList (tag : String) : List DomNode → List DomNode
  | [] => []
  | c :: cs => collectTagNode tag c ++ collectTagList tag cs

/-- All elements with the given tag in one subtree, pre-order. -/
def collectTagNode (tag : String) : DomNode → List DomNode
  | .elem t a ch =>
    (if t = tag then [DomNode.elem t a ch] else []) ++ collectTagList tag ch
  | _ => []

end

mutual

/-- Model of `querySelectorAll([k="v"])` over a forest: all elements whose
attribute `k` equals `v`, in document (pre)order. -/
def collectAttrList (k v : String) : List DomNode → List DomNode
  | [] => []
  | c :: cs => collectAttrNode k v c ++ collectAttrList k v cs

/-- All elements with attribute `k` equal to `v` in one subtree. -/
def collectAttrNode (k v : String) : DomNode → List DomNode
  | .elem t a ch =>
    (if attrOf a k = some v then [DomNode.elem t a ch] else []) ++
      collectAttrList k v ch
  | _ => []

end

/-- Model of `innerText` of a node; browser rendering of whitespace is outside the
model, so this is text content. -/
def innerText (n : DomNode) : String := textContent n

/-! ## Document converter (the `htmlToMarkdown` script of python-server.py,
lines 548-659) -/

/-- JavaScript `\w`: ASCII letter, digit or underscore. -/
def isWordChar (c : Char) : Bool :=
  c.isAlpha || c.isDigit || c == '_'

/-- Try to match the regex `language-(\w+)` at the start of the list,
returning the captured (greedy, nonempty) word. -/
def langAt (chars : List Char) : Option String :=
  if startsWithList "language-".toList chars then
    let w := (chars.drop 9).takeWhile isWordChar
    if w.isEmpty then none else some (String.mk w)
  else none

/-- Leftmost match of `language-(\w+)` in a character list. -/
def langSearch : List Char → Option String
  | [] => none
  | c :: cs =>
    match langAt (c :: cs) with
    | some w => some w
    | none => langSearch cs

/-- Language tag from `className.match(/language-(\w+)/)`, empty when the
regex does not match. -/
def langOfClass (className : String) : String :=
  (langSearch className.toList).getD ""

/-- Indentation `"  ".repeat(listDepth)`. -/
def indentOf (d : Nat) : String :=
  String.join (List.replicate d "  ")

mutual

/-- One step of the converter: `processNode(node, listDepth)`, with the
tag of the DOM parent passed explicitly (the source reads
`node.parentElement.tagName`). -/
def processNode (parent : Option String) (depth : Nat) : DomNode → String
  | .text s => s
  | .other => ""
  | .elem tag attrs children =>
    match tag with
    | "p" => processKids tag depth children ++ "\n\n"
    | "br" => "\n"
    | "strong" => "**" ++ processKids tag depth children ++ "**"
    | "b" => "**" ++ processKids tag depth children ++ "**"
    | "em" => "*" ++ processKids tag depth children ++ "*"
    | "i" => "*" ++ processKids tag depth children ++ "*"
    | "code" =>
      if parent = some "pre" then processKids tag depth children
      else "`" ++ processKids tag depth children ++ "`"
    | "pre" =>
      let codeEl := findTagList "code" children
      let lang :=
        match codeEl with
        | some c => langOfClass ((attrOfNode c "class").getD "")
        | none => ""
      let codeText :=
        match codeEl with
        | some c => textContent c
        | none => processKids tag depth children
      "```" ++ lang ++ "\n" ++ codeText ++ "\n```\n\n"
    | "h1" => "# " ++ processKids tag depth children ++ "\n\n"
    | "h2" => "## " ++ processKids tag depth children ++ "\n\n"
    | "h3" => "### " ++ processKids tag depth children ++ "\n\n"
    | "h4" => "#### " ++ processKids tag depth children ++ "\n\n"
    | "h5" => "##### " ++ processKids tag depth children ++ "\n\n"
    | "h6" => "###### " ++ processKids tag depth children ++ "\n\n"
    | "ul" =>
      processUlItems depth children ++ (if depth = 0 then "\n" else "")
    | "ol" =>
      processOlItems depth 1 children ++ (if depth = 0 then "\n" else "")
    | "li" => processKids tag depth children
    | "a" =>
      "[" ++ processKids tag depth children ++ "](" ++
        (attrOf attrs "href").getD "" ++ ")"
    | "blockquote" =>
      "> " ++
        joinWith "\n> "
          ((splitLines (processKids tag depth children).toList).map String.mk) ++
        "\n\n"
    | "hr" => "---\n\n"
    | "table" => processKids tag depth children ++ "\n"
    | "thead" => processKids tag depth children
    | "tbody" => processKids tag depth children
    | "tr" =>
      "| " ++ joinWith " | " (processCells depth children) ++ " |\n"
    | "th" => processKids tag depth children
    | "td" => processKids tag depth children
    | "img" =>
      let alt :=
        match attrOf attrs "alt" with
        | some a => if a = "" then "image" else a
        | none => "image"
      "![" ++ alt ++ "](" ++ (attrOf attrs "src").getD "" ++ ")"
    | _ => processKids tag depth children

/-- Concatenated conversion of all child nodes, parent tag recorded. -/
def processKids (tag : String) (depth : Nat) : List DomNode → String
  | [] => ""
  | c :: cs => processNode (some tag) depth c ++ processKids tag depth cs

/-- The `ul` case: each `li` element child on its own `- ` line, indented
by the current depth, the item converted one level deeper and trimmed;
non-`li` children and non-element child nodes contribute nothing. -/
def processUlItems (depth : Nat) : List DomNode → String
  | [] => ""
  | c :: cs =>
    match c with
    | .elem t a ch =>
      (if t = "li" then
        indentOf depth ++ "- " ++
          jsTrim (processNode (some "ul") (depth + 1) (.elem t a ch)) ++ "\n"
      else "") ++ processUlItems depth cs
    | _ => processUlItems depth cs

/-- The `ol` case: like `ul` but numbered sequentially from 1, the counter
advancing only on `li` element children. -/
def processOlItems (depth : Nat) : Nat → List DomNode → String
  | _, [] => ""
  | num, c :: cs =>
    match c with
    | .elem t a ch =>
      if t = "li" then
        indentOf depth ++ toString num ++ ". " ++
          jsTrim (processNode (some "ol") (depth + 1) (.elem t a ch)) ++ "\n" ++
          processOlItems depth (num + 1) cs
      else processOlItems depth num cs
    | _ => processOlItems depth num cs

/-- The `tr` case: every element child becomes a trimmed cell. -/
def processCells (depth : Nat) : List DomNode → List String
  | [] => []
  | c :: cs =>
    match c with
    | .elem t a ch =>
      jsTrim (processNode (some "tr") depth (.elem t a ch)) :: processCells depth cs
    | _ => processCells depth cs

end

/-- Top-level converter: `processNode(el, 0).trim()`. -/
def htmlToMarkdown (el : DomNode) : String :=
  jsTrim (processNode none 0 el)

/-! ## RPC transport (`execute_js`, browser-ai.py lines 97-110 and
python-server.py lines 433-442)

The incoming side of the websocket is modelled as the list of messages
the endpoint would deliver, in order; a message carries the correlation
id of its envelope (events carry none) and the `result.result.value`
payload when present. The source sends one command with the fixed id 1,
reads exactly one message, extracts its value without inspecting the id,
and closes; any exception on the way is caught and yields `none`. -/

structure WsMsg (α : Type) where
  id : Option Nat
  value : Option α
deriving DecidableEq

/-- Outcome of `websocket.create_connection`: refused, or accepted with
the stream of messages the endpoint will deliver. -/
inductive ConnOutcome (α : Type) where
  | refused
  | accepted (incoming : List (WsMsg α))

/-- Observable channel-lifecycle actions of one `execute_js` call. -/
inductive TransportEvent where
  | opened
  | sent (id : Nat) (method : String)
  | received
  | closed
deriving DecidableEq

/-- Model of `execute_js`: value returned to the caller, paired with the channel
actions performed. The exception path after a successful open (empty
incoming stream: `recv` raises) skips `ws.close()`. -/
def execute_js {α : Type} (wsUrl : Option String) (conn : ConnOutcome α) :
    Option α × List TransportEvent :=
  match wsUrl with
  | none => (none, [])
  | some _ =>
    match conn with
    | .refused => (none, [])
    | .accepted [] => (none, [.opened, .sent 1 "Runtime.evaluate"])
    | .accepted (m :: _) =>
      (m.value, [.opened, .sent 1 "Runtime.evaluate", .received, .closed])

/-- Modelled from the spec, for comparison: the value of the first
response whose correlation id matches the request id. -/
def correlatedValue {α : Type} (reqId : Nat) (msgs : List (WsMsg α)) :
    Option α :=
  match msgs.find? (fun m => m.id == some reqId) with
  | some m => m.value
  | none => none

/-! ## Tab selection (`connect_chatgpt`, browser-ai.py lines 112-127, and
the tab scan of `_browser_ai`, python-server.py lines 445-460) -/

structure Tab where
  /-- The `url` field of the tab descriptor. -/
  url : String
  /-- The `type` field of the tab descriptor. -/
  ttype : String
deriving DecidableEq

/-- First-pass predicate of browser-ai.py: a page tab whose URL contains
`chatgpt.com/c/`. -/
def cliConvTab (t : Tab) : Bool :=
  strContains t.url "chatgpt.com/c/" && t.ttype == "page"

/-- Matching predicate shared by the fallback pass of browser-ai.py and
the scan of python-server.py: a page tab whose URL contains
`chatgpt.com`. -/
def baseTab (t : Tab) : Bool :=
  strContains t.url "chatgpt.com" && t.ttype == "page"

/-- Break condition of the server scan: a matching tab whose URL also
contains `/c/`. -/
def serverConvTab (t : Tab) : Bool :=
  baseTab t && strContains t.url "/c/"

/-- browser-ai.py: first pass takes the first page tab whose URL contains
`chatgpt.com/c/`; the fallback pass takes the first page tab whose URL
contains `chatgpt.com`; `none` when both passes fail. -/
def connect_chatgpt (tabs : List Tab) : Option Tab :=
  match tabs.find? cliConvTab with
  | some t => some t
  | none => tabs.find? baseTab

/-- python-server.py tab scan: one pass that overwrites the candidate
with every matching page tab and stops at the first one whose URL also
contains `/c/`. -/
def serverFindTabGo (acc : Option Tab) : List Tab → Option Tab
  | [] => acc
  | t :: rest =>
    if baseTab t then
      if strContains t.url "/c/" then some t
      else serverFindTabGo (some t) rest
    else serverFindTabGo acc rest

/-- Tab selected by `_browser_ai` (`chatgpt_tab` after the scan). -/
def serverFindTab (tabs : List Tab) : Option Tab :=
  serverFindTabGo none tabs

/-- Last element of a list satisfying a predicate; names the outcome of
the server scan when no conversation tab is present. -/
def lastMatch (p : Tab → Bool) : List Tab → Option Tab
  | [] => none
  | t :: rest =>
    match lastMatch p rest with
    | some r => some r
    | none => if p t then some t else none

/-! ## Message snapshot (`get_messages`, browser-ai.py lines 129-145, and
the `get_messages` action of python-server.py lines 476-494) -/

structure Messages where
  user : List String
  assistant : List String
deriving DecidableEq

/-- Elements tagged as assistant messages, in document order. -/
def assistantMsgs (doc : DomNode) : List DomNode :=
  collectAttrNode "data-message-author-role" "assistant" doc

/-- Elements tagged as user messages, in document order. -/
def userMsgs (doc : DomNode) : List DomNode :=
  collectAttrNode "data-message-author-role" "user" doc

/-- Children forest of an element (scope of `el.querySelector`). -/
def childrenOf : DomNode → List DomNode
  | .elem _ _ ch => ch
  | _ => []

/-- One user entry: the `.whitespace-pre-wrap` descendant when present,
else the element itself, rendered. -/
def bubbleText (el : DomNode) : String :=
  match findClassList "whitespace-pre-wrap" (childrenOf el) with
  | some bubble => innerText bubble
  | none => innerText el

/-- One assistant entry: the `.markdown` descendant when present, else
the element itself, rendered. -/
def mdText (el : DomNode) : String :=
  match findClassList "markdown" (childrenOf el) with
  | some md => innerText md
  | none => innerText el

/-- The snapshot script: always yields both lists. -/
def getMessagesScript (doc : DomNode) : Messages :=
  ⟨(userMsgs doc).map bubbleText, (assistantMsgs doc).map mdText⟩

/-- Model of `get_messages`: the script value is a two-key object, hence truthy,
so the `or`-fallback of the source fires exactly when `execute_js`
returned no value. -/
def get_messages (evalRes : Option Messages) : Messages :=
  evalRes.getD ⟨[], []⟩

/-! ## Poll-tick extraction (the check script of python-server.py,
lines 540-677) -/

structure Image where
  src : String
  alt : String
deriving DecidableEq

/-- One entry of the `images` array: pushed only when the `src` is
non-empty and not a `data:` URL; `alt` defaults to the empty string.
(Resolution of relative URLs by the `src` DOM property is outside the
model; `src` is read as the attribute value.) -/
def imgRefOf (n : DomNode) : Option Image :=
  let src := (attrOfNode n "src").getD ""
  if src != "" && !(strStartsWith src "data:") then
    some ⟨src, (attrOfNode n "alt").getD ""⟩
  else none

/-- The `images` array collected from the most recent assistant element:
its `img` descendants in document order, filtered and mapped by
`imgRefOf` in iteration order. -/
def collectImages (last : DomNode) : List Image :=
  (collectTagList "img" (childrenOf last)).filterMap imgRefOf

/-- The `ObservedSample` shape produced once per poll tick. -/
structure SampleS where
  count : Nat
  text : String
  images : List Image
deriving DecidableEq

/-- The whole check script evaluated against the page. -/
def checkScript (doc : DomNode) : SampleS :=
  let msgs := assistantMsgs doc
  match msgs.getLast? with
  | none => ⟨0, "", []⟩
  | some last =>
    let text :=
      match findClassList "markdown" (childrenOf last) with
      | some md => htmlToMarkdown md
      | none => innerText last
    ⟨msgs.length, text, collectImages last⟩

/-! ## Send flow of browser-ai.py (`send_message`, lines 147-216) -/

/-- Value produced by the input / send page scripts: a non-empty
JavaScript object in both outcomes. -/
inductive ScriptVal where
  | objError (msg : String)
  | objSuccess
deriving DecidableEq

/-- Python truthiness of an evaluate result: both script outcomes are
non-empty objects, hence truthy; only a missing value (transport
failure) is falsy. -/
def truthyVal : Option ScriptVal → Bool
  | none => false
  | some _ => true

/-- The input script: locates `#prompt-textarea`; an error object when it
is absent. -/
def inputScriptVal (hasTextarea : Bool) : ScriptVal :=
  if hasTextarea then .objSuccess else .objError "找不到输入框"

/-- The send script: locates the send button; an error object when it is
absent. -/
def sendScriptVal (hasSendButton : Bool) : ScriptVal :=
  if hasSendButton then .objSuccess else .objError "找不到发送按钮"

/-- The per-tick sample of browser-ai.py (no images there). -/
structure Sample where
  count : Nat
  text : String
deriving DecidableEq

/-- Return value of `send_message` in browser-ai.py. -/
inductive SendResult where
  | errInput
  | errSend
  | sentNoWait
  | ok (response : String)
  | timeout (lastText : String)
deriving DecidableEq

/-- The polling loop of `send_message`: one list entry per tick of the
`range(timeout * 2)` loop, `none` for a tick whose evaluate produced no
value. -/
def sendLoop (oldCount : Nat) :
    List (Option Sample) → String → Nat → SendResult
  | [], lastText, _ => .timeout lastText
  | tick :: rest, lastText, stableCount =>
    match tick with
    | none => sendLoop oldCount rest lastText stableCount
    | some v =>
      if v.count ≤ oldCount then sendLoop oldCount rest lastText stableCount
      else if v.text = lastText ∧ v.text ≠ "" then
        if 3 ≤ stableCount + 1 then .ok v.text
        else sendLoop oldCount rest lastText (stableCount + 1)
      else sendLoop oldCount rest v.text 0

/-- Model of `send_message` of browser-ai.py: the input and send evaluate results
are tested for truthiness; polling runs over `timeout * 2` ticks. -/
def send_message (oldCount : Nat) (inputRes sendRes : Option ScriptVal)
    (waitResponse : Bool) (timeoutSec : Nat) (ticks : Nat → Option Sample) :
    SendResult :=
  if truthyVal inputRes = false then .errInput
  else if truthyVal sendRes = false then .errSend
  else if waitResponse = false then .sentNoWait
  else sendLoop oldCount ((List.range (timeoutSec * 2)).map ticks) "" 0

/-! ## Chat action of python-server.py (`_browser_ai`, lines 497-737) -/

/-- The image markdown appended to a response:
one `![alt](src)` line per image. -/
def imgMarkdown : List Image → String
  | [] => ""
  | i :: rest => "![" ++ i.alt ++ "](" ++ i.src ++ ")\n" ++ imgMarkdown rest

/-- Response text as built by the server: the image markdown block is
appended only when the image list is non-empty. -/
def buildResponse (text : String) (images : List Image) : String :=
  if images.isEmpty then text else text ++ "\n\n" ++ imgMarkdown images

/-- Terminal value of the server chat action. -/
inductive ChatResult where
  | ok (response : String) (images : List Image)
  | timeout (lastText : String) (images : List Image)
deriving DecidableEq

/-- The polling loop of the server chat action, comparing text and image
list against the recorded baseline. -/
def chatLoop (oldCount : Nat) :
    List (Option SampleS) → String → List Image → Nat → ChatResult
  | [], lastText, lastImages, _ =>
    .timeout (buildResponse lastText lastImages) lastImages
  | tick :: rest, lastText, lastImages, stableCount =>
    match tick with
    | none => chatLoop oldCount rest lastText lastImages stableCount
    | some v =>
      if v.count ≤ oldCount then
        chatLoop oldCount rest lastText lastImages stableCount
      else if (v.text = lastText ∧ v.text ≠ "") ∧ v.images = lastImages then
        if 3 ≤ stableCount + 1 then
          .ok (buildResponse v.text v.images) v.images
        else chatLoop oldCount rest lastText lastImages (stableCount + 1)
      else chatLoop oldCount rest v.text v.images 0

/-- The whole chat action after tab resolution: `old_count` falls back to
0 on a failed count evaluate; the evaluate results of the input and send
scripts are bound to no check in the source and are discarded here
exactly as there. -/
def serverChat (oldCountRes : Option Nat) (_inputRes _sendRes : Option ScriptVal)
    (ticks : List (Option SampleS)) : ChatResult :=
  chatLoop (oldCountRes.getD 0) ticks "" [] 0

/-- The stabilization state (baseline text, baseline images, counter)
after consuming a tick trace, ignoring the success exit; used to name
the partial sample a timeout carries. -/
def stabFold (oldCount : Nat) :
    List (Option SampleS) → String → List Image → Nat →
      String × List Image × Nat
  | [], lastText, lastImages, stableCount =>
    (lastText, lastImages, stableCount)
  | tick :: rest, lastText, lastImages, stableCount =>
    match tick with
    | none => stabFold oldCount rest lastText lastImages stableCount
    | some v =>
      if v.count ≤ oldCount then
        stabFold oldCount rest lastText lastImages stableCount
      else if (v.text = lastText ∧ v.text ≠ "") ∧ v.images = lastImages then
        stabFold oldCount rest lastText lastImages (stableCount + 1)
      else stabFold oldCount rest v.text v.images 0

/-! ## Step lemmas for the polling loops -/

theorem sendLoop_nil (old : Nat) (l : String) (c : Nat) :
    sendLoop old [] l c = .timeout l := rfl

theorem sendLoop_none (old : Nat) (rest : List (Option Sample)) (l : String)
    (c : Nat) : sendLoop old (none :: rest) l c = sendLoop old rest l c := rfl

theorem sendLoop_low {old : Nat} {v : Sample} (h : v.count ≤ old)
    (rest : List (Option Sample)) (l : String) (c : Nat) :
    sendLoop old (some v :: rest) l c = sendLoop old rest l c := by
  simp only [sendLoop, if_pos h]

theorem sendLoop_rebase {old : Nat} {v : Sample} {l : String}
    (h : ¬v.count ≤ old) (hd : ¬(v.text = l ∧ v.text ≠ ""))
    (rest : List (Option Sample)) (c : Nat) :
    sendLoop old (some v :: rest) l c = sendLoop old rest v.text 0 := by
  simp only [sendLoop, if_neg h, if_neg hd]

theorem sendLoop_incr {old : Nat} {v : Sample} {l : String} {c : Nat}
    (h : ¬v.count ≤ old) (ht : v.text = l) (hne : v.text ≠ "")
    (hc : ¬3 ≤ c + 1) (rest : List (Option Sample)) :
    sendLoop old (some v :: rest) l c = sendLoop old rest l (c + 1) := by
  simp only [sendLoop, if_neg h, if_pos (And.intro ht hne), if_neg hc]

theorem sendLoop_ok {old : Nat} {v : Sample} {l : String} {c : Nat}
    (h : ¬v.count ≤ old) (ht : v.text = l) (hne : v.text ≠ "")
    (hc : 3 ≤ c + 1) (rest : List (Option Sample)) :
    sendLoop old (some v :: rest) l c = .ok v.text := by
  simp only [sendLoop, if_neg h, if_pos (And.intro ht hne), if_pos hc]

theorem chatLoop_nil (old : Nat) (l : String) (li : List Image) (c : Nat) :
    chatLoop old [] l li c = .timeout (buildResponse l li) li := rfl

theorem chatLoop_none (old : Nat) (rest : List (Option SampleS)) (l : String)
    (li : List Image) (c : Nat) :
    chatLoop old (none :: rest) l li c = chatLoop old rest l li c := rfl

theorem chatLoop_low {old : Nat} {v : SampleS} (h : v.count ≤ old)
    (rest : List (Option SampleS)) (l : String) (li : List Image) (c : Nat) :
    chatLoop old (some v :: rest) l li c = chatLoop old rest l li c := by
  simp only [chatLoop, if_pos h]

theorem chatLoop_rebase {old : Nat} {v : SampleS} {l : String} {li : List Image}
    (h : ¬v.count ≤ old) (hd : ¬((v.text = l ∧ v.text ≠ "") ∧ v.images = li))
    (rest : List (Option SampleS)) (c : Nat) :
    chatLoop old (some v :: rest) l li c = chatLoop old rest v.text v.images 0 := by
  simp only [chatLoop, if_neg h, if_neg hd]

theorem chatLoop_incr {old : Nat} {v : SampleS} {l : String} {li : List Image}
    {c : Nat} (h : ¬v.count ≤ old) (ht : v.text = l) (hne : v.text ≠ "")
    (hi : v.images = li) (hc : ¬3 ≤ c + 1) (rest : List (Option SampleS)) :
    chatLoop old (some v :: rest) l li c = chatLoop old rest l li (c + 1) := by
  simp only [chatLoop, if_neg h, if_pos (And.intro (And.intro ht hne) hi), if_neg hc]

theorem chatLoop_ok {old : Nat} {v : SampleS} {l : String} {li : List Image}
    {c : Nat} (h : ¬v.count ≤ old) (ht : v.text = l) (hne : v.text ≠ "")
    (hi : v.images = li) (hc : 3 ≤ c + 1) (rest : List (Option SampleS)) :
    chatLoop old (some v :: rest) l li c =
      .ok (buildResponse v.text v.images) v.images := by
  simp only [chatLoop, if_neg h, if_pos (And.intro (And.intro ht hne) hi), if_pos hc]

/-! ## Claim theorems -/

/-- C1: once the observed assistant message count exceeds the pre-send
count, the loop declares Stable exactly when three consecutive polls
yield a sample with non-empty text whose text and image list equal the
previous sample's by value — at the third repeat and not earlier — and
any poll whose text or image list differs resets the consecutive-equal
counter to 0 and records the new sample as the baseline. Stated for the
server loop (text and images) and, for the success text, also for the
browser-ai loop: a differing sample rebases, the next two equal samples
only raise the counter to 2 (trace ending there times out), and the
third equal sample returns success; an immediate success on one tick is
exactly characterized by count exceeded, equal non-empty text, equal
images, and a counter already at 2. -/
theorem claim_C1_stabilization (oldCount : Nat) (s : SampleS)
    (hc : oldCount < s.count) (hne : s.text ≠ "") :
    (∀ (l : String) (li : List Image) (c : Nat) (rest : List (Option SampleS)),
      ¬(s.text = l ∧ s.images = li) →
      chatLoop oldCount (some s :: some s :: some s :: some s :: rest) l li c =
        ChatResult.ok (buildResponse s.text s.images) s.images) ∧
    (∀ (l : String) (li : List Image) (c : Nat),
      ¬(s.text = l ∧ s.images = li) →
      chatLoop oldCount [some s, some s, some s] l li c =
        ChatResult.timeout (buildResponse s.text s.images) s.images) ∧
    (∀ (v : SampleS) (l : String) (li : List Image) (c : Nat)
        (rest : List (Option SampleS)),
      oldCount < v.count → ¬(v.text = l ∧ v.images = li) →
      chatLoop oldCount (some v :: rest) l li c =
        chatLoop oldCount rest v.text v.images 0) ∧
    (∀ (v : SampleS) (l : String) (li : List Image) (c : Nat),
      chatLoop oldCount [some v] l li c =
          ChatResult.ok (buildResponse v.text v.images) v.images ↔
        (oldCount < v.count ∧ v.text = l ∧ v.text ≠ "" ∧ v.images = li ∧ 2 ≤ c)) ∧
    (∀ (t : Sample) (l : String) (c : Nat) (rest : List (Option Sample)),
      oldCount < t.count → t.text ≠ "" → t.text ≠ l →
      sendLoop oldCount (some t :: some t :: some t :: some t :: rest) l c =
        SendResult.ok t.text) := by
  have hnle : ¬s.count ≤ oldCount := Nat.not_le.mpr hc
  refine ⟨?_, ?_, ?_, ?_, ?_⟩
  · intro l li c rest hd
    rw [chatLoop_rebase hnle (fun h => hd ⟨h.1.1, h.2⟩),
      chatLoop_incr hnle rfl hne rfl (by omega),
      chatLoop_incr hnle rfl hne rfl (by omega),
      chatLoop_ok hnle rfl hne rfl (by omega)]
  · intro l li c hd
    rw [chatLoop_rebase hnle (fun h => hd ⟨h.1.1, h.2⟩),
      chatLoop_incr hnle rfl hne rfl (by omega),
      chatLoop_incr hnle rfl hne rfl (by omega), chatLoop_nil]
  · intro v l li c rest hv hd
    exact chatLoop_rebase (Nat.not_le.mpr hv) (fun h => hd ⟨h.1.1, h.2⟩) rest c
  · intro v l li c
    constructor
    · intro hok
      by_cases h1 : v.count ≤ oldCount
      · rw [chatLoop_low h1, chatLoop_nil] at hok
        exact absurd hok (by simp)
      · by_cases h2 : (v.text = l ∧ v.text ≠ "") ∧ v.images = li
        · by_cases h3 : 3 ≤ c + 1
          · exact ⟨Nat.not_le.mp h1, h2.1.1, h2.1.2, h2.2, by omega⟩
          · rw [chatLoop_incr h1 h2.1.1 h2.1.2 h2.2 h3, chatLoop_nil] at hok
            exact absurd hok (by simp)
        · rw [chatLoop_rebase h1 h2, chatLoop_nil] at hok
          exact absurd hok (by simp)
    · rintro ⟨hv, ht, hn, hi, hcge⟩
      exact chatLoop_ok (Nat.not_le.mpr hv) ht hn hi (by omega) []
  · intro t l c rest hv hn hd
    have hnle2 : ¬t.count ≤ oldCount := Nat.not_le.mpr hv
    rw [sendLoop_rebase hnle2 (fun h => hd h.1),
      sendLoop_incr hnle2 rfl hn (by omega),
      sendLoop_incr hnle2 rfl hn (by omega),
      sendLoop_ok hnle2 rfl hn (by omega)]

/-- C1 witness: with pre-send count 0, the trace of four identical
non-empty samples (one rebase poll, then three equal polls) returns
success at the last poll. -/
theorem claim_C1_witness :
    chatLoop 0
        [some ⟨1, "hi", []⟩, some ⟨1, "hi", []⟩, some ⟨1, "hi", []⟩,
          some ⟨1, "hi", []⟩] "" [] 0 =
      ChatResult.ok (buildResponse "hi" []) [] := by
  exact (claim_C1_stabilization 0 ⟨1, "hi", []⟩ (by decide) (by decide)).1
    "" [] 0 [] (by simp)

/-- C6: a poll tick whose evaluate produced no value is skipped without
modifying the stabilization state, in both loops; a trace consisting
solely of failed ticks runs to budget exhaustion and times out. -/
theorem claim_C6_failed_tick_skipped :
    (∀ (old : Nat) (rest : List (Option Sample)) (l : String) (c : Nat),
      sendLoop old (none :: rest) l c = sendLoop old rest l c) ∧
    (∀ (old : Nat) (rest : List (Option SampleS)) (l : String)
        (li : List Image) (c : Nat),
      chatLoop old (none :: rest) l li c = chatLoop old rest l li c) ∧
    (∀ (old n : Nat) (l : String) (c : Nat),
      sendLoop old (List.replicate n none) l c = SendResult.timeout l) ∧
    (∀ (old n : Nat) (l : String) (li : List Image) (c : Nat),
      chatLoop old (List.replicate n none) l li c =
        ChatResult.timeout (buildResponse l li) li) := by
  refine ⟨fun _ _ _ _ => rfl, fun _ _ _ _ _ => rfl, ?_, ?_⟩
  · intro old n
    induction n with
    | zero => intro l c; rfl
    | succ k ih =>
      intro l c
      rw [List.replicate_succ, sendLoop_none]
      exact ih l c
  · intro old n
    induction n with
    | zero => intro l li c; rfl
    | succ k ih =>
      intro l li c
      rw [List.replicate_succ, chatLoop_none]
      exact ih l li c

/-! ## Lemmas relating the loops to their final stabilization state -/

theorem stabFold_none (old : Nat) (rest : List (Option SampleS)) (l : String)
    (li : List Image) (c : Nat) :
    stabFold old (none :: rest) l li c = stabFold old rest l li c := rfl

theorem stabFold_low {old : Nat} {v : SampleS} (h : v.count ≤ old)
    (rest : List (Option SampleS)) (l : String) (li : List Image) (c : Nat) :
    stabFold old (some v :: rest) l li c = stabFold old rest l li c := by
  simp only [stabFold, if_pos h]

theorem stabFold_incr {old : Nat} {v : SampleS} {l : String} {li : List Image}
    (h : ¬v.count ≤ old) (ht : v.text = l) (hne : v.text ≠ "")
    (hi : v.images = li) (rest : List (Option SampleS)) (c : Nat) :
    stabFold old (some v :: rest) l li c = stabFold old rest l li (c + 1) := by
  simp only [stabFold, if_neg h, if_pos (And.intro (And.intro ht hne) hi)]

theorem stabFold_rebase {old : Nat} {v : SampleS} {l : String} {li : List Image}
    (h : ¬v.count ≤ old) (hd : ¬((v.text = l ∧ v.text ≠ "") ∧ v.images = li))
    (rest : List (Option SampleS)) (c : Nat) :
    stabFold old (some v :: rest) l li c = stabFold old rest v.text v.images 0 := by
  simp only [stabFold, if_neg h, if_neg hd]

/-- The server loop either succeeds or times out carrying the baseline
sample of its final stabilization state. -/
theorem chatLoop_timeout_or_ok (old : Nat) :
    ∀ (trace : List (Option SampleS)) (l : String) (li : List Image) (c : Nat),
      (∃ r i, chatLoop old trace l li c = ChatResult.ok r i) ∨
      chatLoop old trace l li c =
        ChatResult.timeout
          (buildResponse (stabFold old trace l li c).1
            (stabFold old trace l li c).2.1)
          (stabFold old trace l li c).2.1 := by
  intro trace
  induction trace with
  | nil => intro l li c; right; rfl
  | cons tick rest ih =>
    intro l li c
    cases tick with
    | none =>
      rw [chatLoop_none, stabFold_none]
      exact ih l li c
    | some v =>
      by_cases h1 : v.count ≤ old
      · rw [chatLoop_low h1, stabFold_low h1]
        exact ih l li c
      · by_cases h2 : (v.text = l ∧ v.text ≠ "") ∧ v.images = li
        · by_cases h3 : 3 ≤ c + 1
          · exact Or.inl ⟨_, _, chatLoop_ok h1 h2.1.1 h2.1.2 h2.2 h3 rest⟩
          · rw [chatLoop_incr h1 h2.1.1 h2.1.2 h2.2 h3,
              stabFold_incr h1 h2.1.1 h2.1.2 h2.2]
            exact ih l li (c + 1)
        · rw [chatLoop_rebase h1 h2, stabFold_rebase h1 h2]
          exact ih v.text v.images 0

/-- While no tick reports a count above the pre-send count, the server
loop skips every tick and times out with its initial state. -/
theorem chatLoop_no_new (old : Nat) :
    ∀ (trace : List (Option SampleS)) (l : String) (li : List Image) (c : Nat),
      (∀ v : SampleS, some v ∈ trace → v.count ≤ old) →
      chatLoop old trace l li c = ChatResult.timeout (buildResponse l li) li := by
  intro trace
  induction trace with
  | nil => intro l li c _; rfl
  | cons tick rest ih =>
    intro l li c h
    cases tick with
    | none =>
      rw [chatLoop_none]
      exact ih l li c (fun v hv => h v (List.mem_cons_of_mem _ hv))
    | some v =>
      rw [chatLoop_low (h v (List.mem_cons_self _ _))]
      exact ih l li c (fun w hw => h w (List.mem_cons_of_mem _ hw))

/-- Same for the browser-ai loop. -/
theorem sendLoop_no_new (old : Nat) :
    ∀ (trace : List (Option Sample)) (l : String) (c : Nat),
      (∀ v : Sample, some v ∈ trace → v.count ≤ old) →
      sendLoop old trace l c = SendResult.timeout l := by
  intro trace
  induction trace with
  | nil => intro l c _; rfl
  | cons tick rest ih =>
    intro l c h
    cases tick with
    | none =>
      rw [sendLoop_none]
      exact ih l c (fun v hv => h v (List.mem_cons_of_mem _ hv))
    | some v =>
      rw [sendLoop_low (h v (List.mem_cons_self _ _))]
      exact ih l c (fun w hw => h w (List.mem_cons_of_mem _ hw))

/-- The browser-ai loop never yields the submit or send error results. -/
theorem sendLoop_not_err (old : Nat) :
    ∀ (trace : List (Option Sample)) (l : String) (c : Nat),
      sendLoop old trace l c ≠ SendResult.errInput ∧
      sendLoop old trace l c ≠ SendResult.errSend := by
  intro trace
  induction trace with
  | nil => intro l c; rw [sendLoop_nil]; exact ⟨by simp, by simp⟩
  | cons tick rest ih =>
    intro l c
    cases tick with
    | none => rw [sendLoop_none]; exact ih l c
    | some v =>
      by_cases h1 : v.count ≤ old
      · rw [sendLoop_low h1]; exact ih l c
      · by_cases h2 : v.text = l ∧ v.text ≠ ""
        · by_cases h3 : 3 ≤ c + 1
          · rw [sendLoop_ok h1 h2.1 h2.2 h3]; exact ⟨by simp, by simp⟩
          · rw [sendLoop_incr h1 h2.1 h2.2 h3]; exact ih l (c + 1)
        · rw [sendLoop_rebase h1 h2]; exact ih v.text 0

/-- C3: when the tick budget runs out without the policy confirming
completion, the result is Timeout carrying the last recorded partial
sample — the baseline text (and, in the server variant, images) of the
final stabilization state; when no tick ever reports a count above the
pre-send count, the partial sample is the empty one; at the level of
`send_message`, whose budget is `timeout * 2` ticks, such a run returns
Timeout with empty partial text. -/
theorem claim_C3_timeout_carries_partial :
    (∀ (old : Nat) (trace : List (Option SampleS)) (l : String)
        (li : List Image) (c : Nat),
      (∃ r i, chatLoop old trace l li c = ChatResult.ok r i) ∨
      chatLoop old trace l li c =
        ChatResult.timeout
          (buildResponse (stabFold old trace l li c).1
            (stabFold old trace l li c).2.1)
          (stabFold old trace l li c).2.1) ∧
    (∀ (old : Nat) (trace : List (Option SampleS)),
      (∀ v : SampleS, some v ∈ trace → v.count ≤ old) →
      chatLoop old trace "" [] 0 = ChatResult.timeout "" []) ∧
    (∀ (old timeoutSec : Nat) (i₁ i₂ : ScriptVal) (ticks : Nat → Option Sample),
      (∀ (n : Nat) (v : Sample), ticks n = some v → v.count ≤ old) →
      send_message old (some i₁) (some i₂) true timeoutSec ticks =
        SendResult.timeout "") := by
  refine ⟨fun old => chatLoop_timeout_or_ok old, ?_, ?_⟩
  · intro old trace h
    rw [chatLoop_no_new old trace "" [] 0 h]
    rfl
  · intro old timeoutSec i₁ i₂ ticks h
    show (if truthyVal (some i₁) = false then SendResult.errInput else _) = _
    rw [if_neg (by simp [truthyVal]), if_neg (by simp [truthyVal]),
      if_neg (by simp)]
    refine sendLoop_no_new old _ "" 0 ?_
    intro v hv
    rcases List.mem_map.mp hv with ⟨n, _, hn⟩
    exact h n v hn

/-- C3 witness: a tick source that always reports count 0 against
pre-send count 0 makes `send_message` with a 1-second budget time out
with empty partial text. -/
theorem claim_C3_witness :
    send_message 0 (some ScriptVal.objSuccess) (some ScriptVal.objSuccess)
        true 1 (fun _ => some ⟨0, "x"⟩) = SendResult.timeout "" := by
  refine claim_C3_timeout_carries_partial.2.2 0 1 _ _ _ ?_
  intro n v h
  simp only [Option.some.injEq] at h
  rw [← h]

/-- C2 evaluation: with the transport working and both page elements
absent, the submit and send scripts return error objects, which are
truthy, so `send_message` proceeds into polling and times out instead of
failing; with truthy submit/send results it can never return the
submit-failed or send-failed errors; and the server chat action ignores
the submit and send evaluate results altogether. -/
theorem claim_C2_element_absent_not_terminal :
    send_message 0 (some (inputScriptVal false)) (some (sendScriptVal false))
        true 1 (fun _ => none) = SendResult.timeout "" ∧
    (∀ (old timeoutSec : Nat) (ticks : Nat → Option Sample),
      send_message old (some (inputScriptVal false))
          (some (sendScriptVal false)) true timeoutSec ticks ≠
        SendResult.errInput ∧
      send_message old (some (inputScriptVal false))
          (some (sendScriptVal false)) true timeoutSec ticks ≠
        SendResult.errSend) ∧
    (∀ (o : Option Nat) (i₁ i₂ j₁ j₂ : Option ScriptVal)
        (t : List (Option SampleS)),
      serverChat o i₁ i₂ t = serverChat o j₁ j₂ t) := by
  refine ⟨by decide, ?_, fun _ _ _ _ _ _ => rfl⟩
  intro old timeoutSec ticks
  show (if truthyVal (some (inputScriptVal false)) = false
      then SendResult.errInput else _) ≠ _ ∧
    (if truthyVal (some (inputScriptVal false)) = false
      then SendResult.errInput else _) ≠ _
  rw [if_neg (by simp [truthyVal]), if_neg (by simp [truthyVal]),
    if_neg (by simp)]
  exact sendLoop_not_err old _ "" 0

/-! ## Tab-scan characterization -/

/-- The server scan selects the first conversation tab when one exists,
and otherwise the last matching tab, falling back to the accumulator. -/
theorem serverFindTabGo_spec :
    ∀ (tabs : List Tab) (acc : Option Tab),
      serverFindTabGo acc tabs =
        match tabs.find? serverConvTab with
        | some t => some t
        | none =>
          match lastMatch baseTab tabs with
          | some t => some t
          | none => acc := by
  intro tabs
  induction tabs with
  | nil => intro acc; rfl
  | cons t rest ih =>
    intro acc
    by_cases hb : baseTab t = true
    · by_cases hc : strContains t.url "/c/" = true
      · have hconv : serverConvTab t = true := by
          simp [serverConvTab, hb, hc]
        rw [serverFindTabGo, if_pos hb, if_pos hc,
          List.find?_cons_of_pos _ hconv]
      · have hconv : ¬serverConvTab t = true := by
          simp [serverConvTab, hc]
        rw [serverFindTabGo, if_pos hb, if_neg (by simp [hc]), ih (some t),
          List.find?_cons_of_neg _ hconv]
        cases hf : rest.find? serverConvTab with
        | some r => rfl
        | none =>
          show _ = (match lastMatch baseTab (t :: rest) with
            | some r => some r
            | none => acc)
          rw [lastMatch]
          cases hl : lastMatch baseTab rest with
          | some r => rfl
          | none => rw [if_pos hb]
    · have hconv : ¬serverConvTab t = true := by
        simp [serverConvTab, hb]
      rw [serverFindTabGo, if_neg hb, ih acc,
        List.find?_cons_of_neg _ hconv]
      cases hf : rest.find? serverConvTab with
      | some r => rfl
      | none =>
        show _ = (match lastMatch baseTab (t :: rest) with
          | some r => some r
          | none => acc)
        rw [lastMatch]
        cases hl : lastMatch baseTab rest with
        | some r => rfl
        | none => rw [if_neg hb]

/-- When no element matches, neither does the last one. -/
theorem lastMatch_of_find?_none {p : Tab → Bool} :
    ∀ {tabs : List Tab}, tabs.find? p = none → lastMatch p tabs = none := by
  intro tabs
  induction tabs with
  | nil => intro _; rfl
  | cons t rest ih =>
    intro h
    have hall := List.find?_eq_none.mp h
    have hrest : rest.find? p = none :=
      List.find?_eq_none.mpr fun x hx => hall x (List.mem_cons_of_mem _ hx)
    rw [lastMatch, ih hrest, if_neg (hall t (List.mem_cons_self _ _))]

/-- C4 counterexample: with an uncorrelated message (id 2) delivered
before the correlated response (id 1, value 7), `execute_js` returns the
first message's payload (42), not the value of the response whose
correlation id matches the request id — the claimed blocking-until-match
behaviour does not hold. -/
theorem claim_C4_counterexample :
    (execute_js (α := Nat) (some "ws")
        (ConnOutcome.accepted [⟨some 2, some 42⟩, ⟨some 1, some 7⟩])).1 =
      some 42 ∧
    correlatedValue (α := Nat) 1 [⟨some 2, some 42⟩, ⟨some 1, some 7⟩] =
      some 7 ∧
    (execute_js (α := Nat) (some "ws")
        (ConnOutcome.accepted [⟨some 2, some 42⟩, ⟨some 1, some 7⟩])).1 ≠
      correlatedValue (α := Nat) 1 [⟨some 2, some 42⟩, ⟨some 1, some 7⟩] := by
  refine ⟨rfl, rfl, by decide⟩

/-- C4 amended: each evaluate call opens a fresh channel, writes one
request envelope with the fixed id 1, reads exactly one incoming message
and returns its result value without checking the correlation id, then
closes the channel (one open and one close per call on that path; the
close is skipped when no message arrives); later messages, correlated or
not, are never read, and a refused connection or missing channel address
yields no value. -/
theorem claim_C4_call_scoped_channel {α : Type} (u : String) (m : WsMsg α)
    (rest : List (WsMsg α)) :
    execute_js (some u) (ConnOutcome.accepted (m :: rest)) =
      (m.value,
        [TransportEvent.opened, TransportEvent.sent 1 "Runtime.evaluate",
          TransportEvent.received, TransportEvent.closed]) ∧
    execute_js (some u) (ConnOutcome.accepted ([] : List (WsMsg α))) =
      (none, [TransportEvent.opened, TransportEvent.sent 1 "Runtime.evaluate"]) ∧
    execute_js (some u) (ConnOutcome.refused : ConnOutcome α) = (none, []) ∧
    execute_js (none : Option String) (ConnOutcome.accepted (m :: rest)) =
      ((none : Option α), []) :=
  ⟨rfl, rfl, rfl, rfl⟩

/-- C5 counterexample: with two base-URL page tabs and no conversation
tab, the server scan selects the second (last) one in listing order, not
the first, so first-match-wins does not hold within the base tier. -/
theorem claim_C5_counterexample :
    serverFindTab
        [⟨"https://chatgpt.com/", "page"⟩,
          ⟨"https://chatgpt.com/about", "page"⟩] =
      some ⟨"https://chatgpt.com/about", "page"⟩ ∧
    Tab.mk "https://chatgpt.com/about" "page" ≠
      Tab.mk "https://chatgpt.com/" "page" := by
  decide

/-- C5 amended: both variants prefer a conversation tab over a mere
base-URL tab regardless of listing position, and report NotFound when
nothing matches; within tiers, browser-ai.py takes the first match of
each pass, while the server scan takes the first conversation match but
the LAST base-URL match in listing order. -/
theorem claim_C5_tab_selection (tabs : List Tab) (t : Tab) :
    (tabs.find? cliConvTab = some t → connect_chatgpt tabs = some t) ∧
    (tabs.find? cliConvTab = none →
      connect_chatgpt tabs = tabs.find? baseTab) ∧
    (tabs.find? serverConvTab = some t → serverFindTab tabs = some t) ∧
    (tabs.find? serverConvTab = none →
      serverFindTab tabs = lastMatch baseTab tabs) ∧
    (tabs.find? cliConvTab = none → tabs.find? baseTab = none →
      tabs.find? serverConvTab = none →
      connect_chatgpt tabs = none ∧ serverFindTab tabs = none) := by
  refine ⟨?_, ?_, ?_, ?_, ?_⟩
  · intro h; rw [connect_chatgpt, h]
  · intro h; rw [connect_chatgpt, h]
  · intro h; rw [serverFindTab, serverFindTabGo_spec, h]
  · intro h
    rw [serverFindTab, serverFindTabGo_spec, h]
    cases hl : lastMatch baseTab tabs with
    | some r => rfl
    | none => rfl
  · intro h1 h2 h3
    constructor
    · rw [connect_chatgpt, h1, h2]
    · rw [serverFindTab, serverFindTabGo_spec, h3,
        lastMatch_of_find?_none h2]

/-- C5 witness: a conversation tab listed after a base tab (server scan)
or after a non-matching tab (browser-ai) is the one selected. -/
theorem claim_C5_witness :
    serverFindTab
        [⟨"https://chatgpt.com/", "page"⟩,
          ⟨"https://chatgpt.com/c/abc", "page"⟩] =
      some ⟨"https://chatgpt.com/c/abc", "page"⟩ ∧
    connect_chatgpt
        [⟨"https://example.com/", "page"⟩,
          ⟨"https://chatgpt.com/c/abc", "page"⟩] =
      some ⟨"https://chatgpt.com/c/abc", "page"⟩ := by
  constructor
  · exact (claim_C5_tab_selection _ _).2.2.1 (by decide)
  · exact (claim_C5_tab_selection _ _).1 (by decide)

/-! ## Copies and selection helpers for the converter claims -/

mutual

/-- A structurally fresh copy of a node tree: conversion cannot depend on
node identity or sharing, only on this structure. -/
def deepCopy : DomNode → DomNode
  | .text s => .text s
  | .other => .other
  | .elem t a ch => .elem t a (deepCopyList ch)

/-- Copy of a forest. -/
def deepCopyList : List DomNode → List DomNode
  | [] => []
  | c :: cs => deepCopy c :: deepCopyList cs

end

mutual

theorem deepCopy_eq : ∀ t : DomNode, deepCopy t = t
  | .text _ => by rw [deepCopy]
  | .other => by rw [deepCopy]
  | .elem t a ch => by rw [deepCopy, deepCopyList_eq ch]

theorem deepCopyList_eq : ∀ l : List DomNode, deepCopyList l = l
  | [] => by rw [deepCopyList]
  | c :: cs => by rw [deepCopyList, deepCopy_eq c, deepCopyList_eq cs]

end

/-- Filtering to the kept elements first does not change a `filterMap`. -/
theorem filterMap_eq_filter_filterMap {α β : Type} (f : α → Option β) :
    ∀ l : List α,
      l.filterMap f = (l.filter (fun x => (f x).isSome)).filterMap f := by
  intro l
  induction l with
  | nil => rfl
  | cons a l ih =>
    cases hf : f a with
    | none => simp [List.filterMap_cons, List.filter_cons, hf, ih]
    | some b => simp [List.filterMap_cons, List.filter_cons, hf, ih]

/-- C7: the converter renders a code block as a triple-backtick fence
whose language tag is extracted from a `language-<name>` class on the
inner code element (empty when the class yields no match) and whose
content is the code element's text taken verbatim; a code element whose
parent is the code block is passed through without backtick wrapping,
while under any other parent it is backtick-wrapped; concretely, a
`language-python` block containing "print(1)" converts, after top-level
trim, to the fenced python block. -/
theorem claim_C7_code_block (parent : Option String) (depth : Nat)
    (attrs : List (String × String)) (children : List DomNode) (c : DomNode)
    (hfind : findTagList "code" children = some c) :
    processNode parent depth (DomNode.elem "pre" attrs children) =
      "```" ++ langOfClass ((attrOfNode c "class").getD "") ++ "\n" ++
        textContent c ++ "\n```\n\n" ∧
    (∀ (a : List (String × String)) (ch : List DomNode),
      processNode (some "pre") depth (DomNode.elem "code" a ch) =
        processKids "code" depth ch) ∧
    (∀ (a : List (String × String)) (ch : List DomNode),
      processNode (some "p") depth (DomNode.elem "code" a ch) =
        "`" ++ processKids "code" depth ch ++ "`") ∧
    langOfClass "language-python" = "python" ∧
    langOfClass "" = "" ∧
    htmlToMarkdown
        (DomNode.elem "pre" []
          [DomNode.elem "code" [("class", "language-python")]
            [DomNode.text "print(1)"]]) =
      "```python\nprint(1)\n```" := by
  refine ⟨?_, ?_, ?_, by decide, rfl, ?_⟩
  · simp only [processNode, hfind]
  · intro a ch
    simp [processNode]
  · intro a ch
    simp [processNode]
  · simp only [htmlToMarkdown, processNode, processKids, findTagList,
      findTagNode, textContent, textContentList, langOfClass, langSearch,
      langAt, attrOfNode, attrOf]
    decide

/-- C7 witness: the general fence equation evaluated on the concrete
python code block. -/
theorem claim_C7_witness :
    processNode none 0
        (DomNode.elem "pre" []
          [DomNode.elem "code" [("class", "language-python")]
            [DomNode.text "print(1)"]]) =
      "```" ++ langOfClass "language-python" ++ "\n" ++ "print(1)" ++
        "\n```\n\n" := by
  have h := (claim_C7_code_block none 0 []
    [DomNode.elem "code" [("class", "language-python")] [DomNode.text "print(1)"]]
    (DomNode.elem "code" [("class", "language-python")] [DomNode.text "print(1)"])
    (by simp [findTagList, findTagNode])).1
  simpa [attrOfNode, attrOf, textContent, textContentList] using h

/-- C8: the converter is a pure function of the node tree alone — it is
embedded as a total function with no state — so converting equal trees
(in particular the same unmodified tree twice) yields identical output,
and conversion of a structurally fresh copy coincides with conversion of
the original, witnessing independence from node identity and absence of
tree mutation. -/
theorem claim_C8_converter_pure :
    (∀ t u : DomNode, t = u → htmlToMarkdown t = htmlToMarkdown u) ∧
    (∀ t : DomNode, deepCopy t = t) ∧
    (∀ t : DomNode, htmlToMarkdown (deepCopy t) = htmlToMarkdown t) :=
  ⟨fun _ _ h => by rw [h], deepCopy_eq, fun t => by rw [deepCopy_eq]⟩

/-- C8 witness: the copy-invariance applied to a concrete tree. -/
theorem claim_C8_witness :
    htmlToMarkdown (deepCopy (DomNode.elem "p" [] [DomNode.text "hi"])) =
      htmlToMarkdown (DomNode.elem "p" [] [DomNode.text "hi"]) :=
  claim_C8_converter_pure.2.2 _

/-- C9: the extraction script returns exactly the `{count, text, images}`
shape — the empty sample when there is no assistant element, else the
assistant count, the rendered body of the most recent assistant element,
and its image list; every collected image has a non-empty source that is
not a `data:` URL, its fields are the `src` attribute and the `alt`
attribute defaulted to the empty string, and the list is an
order-preserving selection (a sublist mapping) of the element's `img`
descendants in document order. -/
theorem claim_C9_extraction_shape (doc : DomNode) (last : DomNode)
    (hlast : (assistantMsgs doc).getLast? = some last) :
    checkScript doc =
      ⟨(assistantMsgs doc).length,
        (match findClassList "markdown" (childrenOf last) with
          | some md => htmlToMarkdown md
          | none => innerText last),
        collectImages last⟩ ∧
    (∀ doc2 : DomNode, assistantMsgs doc2 = [] →
      checkScript doc2 = ⟨0, "", []⟩) ∧
    (∀ i : Image, i ∈ collectImages last →
      i.src ≠ "" ∧ strStartsWith i.src "data:" = false) ∧
    (∀ (n : DomNode) (i : Image), imgRefOf n = some i →
      i.src = (attrOfNode n "src").getD "" ∧
      i.alt = (attrOfNode n "alt").getD "") ∧
    (collectImages last =
        ((collectTagList "img" (childrenOf last)).filter
            (fun n => (imgRefOf n).isSome)).filterMap imgRefOf ∧
      ((collectTagList "img" (childrenOf last)).filter
          (fun n => (imgRefOf n).isSome)).Sublist
        (collectTagList "img" (childrenOf last))) := by
  refine ⟨?_, ?_, ?_, ?_, ?_, ?_⟩
  · simp only [checkScript, hlast]
  · intro doc2 h
    simp [checkScript, h]
  · intro i hi
    rw [collectImages] at hi
    rcases List.mem_filterMap.mp hi with ⟨n, _, hf⟩
    simp only [imgRefOf] at hf
    split at hf
    · next hcond =>
      rcases Option.some.inj hf with rfl
      simp only [Bool.and_eq_true, bne_iff_ne, Bool.not_eq_true'] at hcond
      exact hcond
    · exact absurd hf (by simp)
  · intro n i hf
    simp only [imgRefOf] at hf
    split at hf
    · rcases Option.some.inj hf with rfl
      exact ⟨rfl, rfl⟩
    · exact absurd hf (by simp)
  · exact filterMap_eq_filter_filterMap imgRefOf _
  · exact List.filter_sublist _

/-- C9 witness: a concrete assistant element with one inline `data:`
image and one regular image; the collected image is the regular one and
satisfies the exclusion conditions. -/
theorem claim_C9_witness :
    (⟨"https://a/b.png", "pic"⟩ : Image).src ≠ "" ∧
    strStartsWith (⟨"https://a/b.png", "pic"⟩ : Image).src "data:" = false := by
  refine (claim_C9_extraction_shape
    (DomNode.elem "div" [("data-message-author-role", "assistant")]
      [DomNode.elem "img" [("src", "data:xyz"), ("alt", "x")] [],
        DomNode.elem "img" [("src", "https://a/b.png"), ("alt", "pic")] []])
    (DomNode.elem "div" [("data-message-author-role", "assistant")]
      [DomNode.elem "img" [("src", "data:xyz"), ("alt", "x")] [],
        DomNode.elem "img" [("src", "https://a/b.png"), ("alt", "pic")] []])
    ?_).2.2.1 _ ?_
  · simp [assistantMsgs, collectAttrNode, collectAttrList, attrOf]
  · simp [collectImages, childrenOf, collectTagList, collectTagNode,
      imgRefOf, attrOfNode, attrOf, strStartsWith, startsWithList]

/-- C10: the message snapshot is total at its public interface: whatever
the evaluate outcome, it returns a structure carrying both a user list
and an assistant list — the script value when one was delivered, the
empty fallback otherwise — and the script itself always produces both
lists; exceptions are absorbed into the no-value outcome by the
transport model. -/
theorem claim_C10_get_messages_total :
    (∀ r : Option Messages, get_messages r = ⟨[], []⟩ ∨
      ∃ m : Messages, r = some m ∧ get_messages r = m) ∧
    get_messages none = ⟨[], []⟩ ∧
    (∀ doc : DomNode,
      get_messages (some (getMessagesScript doc)) = getMessagesScript doc) ∧
    (∀ doc : DomNode,
      (getMessagesScript doc).user = (userMsgs doc).map bubbleText ∧
      (getMessagesScript doc).assistant = (assistantMsgs doc).map mdText) := by
  refine ⟨?_, rfl, fun _ => rfl, fun _ => ⟨rfl, rfl⟩⟩
  intro r
  cases r with
  | none => exact Or.inl rfl
  | some m => exact Or.inr ⟨m, rfl, rfl⟩

end OrcaAI
